import Mathlib

/-!
Verification of the PDF-merge core (`src/PDF_merge.py`).

The script merges a list of uploaded PDF documents into one output:
it computes a human-facing start page for each document (page 1 is the
generated table-of-contents page), renders a single TOC page with one
text line per document, appends the TOC page and then every document's
pages to a writer, records the writer index at which each document
starts, adds one outline bookmark per document, and attaches one
clickable link rectangle per TOC line targeting the document's start
index.

The embedding below mirrors the two functions `create_toc_page` and
`merge_pdfs_with_toc`.  Page content is abstract (a type parameter
`α`); a source document is its name together with its list of pages,
matching the `(name, reader.pages)` pair the script extracts.  Real
page geometry (reportlab's A4 in points) is modelled with exact
rationals; every coordinate computation in the script is an exact
addition or subtraction of these constants, so the rational model is
faithful.
-/

/-- Millimetre in points as reportlab defines it: `mm = 72 / 25.4`. -/
def mm : ℚ := 72 / (127 / 5)

/-- A4 page width in points (`A4 = (210*mm, 297*mm)` in reportlab). -/
def A4width : ℚ := 210 * mm

/-- A4 page height in points. -/
def A4height : ℚ := 297 * mm

/-- A source document as `merge_pdfs_with_toc` sees it after reading:
a display name and the sequence of pages of the underlying reader. -/
structure Doc (α : Type) where
  name : String
  pages : List α
deriving DecidableEq, Repr

instance {α : Type} : Inhabited (Doc α) := ⟨⟨"", []⟩⟩

/-- A TOC entry built in step 2 of `merge_pdfs_with_toc`:
`{"title": info["name"], "start_page": start_page}`. -/
structure TocEntry where
  title : String
  start_page : Nat
deriving DecidableEq, Repr

instance : Inhabited TocEntry := ⟨⟨"", 0⟩⟩

/-- One `c.drawString(x, y, text)` call on the TOC canvas, in the
page's bottom-left-origin coordinate space. -/
structure DrawnLine where
  x : ℚ
  y : ℚ
  text : String
deriving DecidableEq, Repr

instance : Inhabited DrawnLine := ⟨⟨0, 0, ""⟩⟩

/-- A page of the assembled output: either the rendered TOC page (its
list of drawn lines) or a page taken from a source document. -/
inductive MergedPage (α : Type) where
  | toc (lines : List DrawnLine)
  | src (page : α)
deriving DecidableEq, Repr

/-- The text of TOC line `i` (1-based ordinal), from
`f"{i}. {entry['title']}  ......  p. {entry['start_page']}"`. -/
def tocLineText (i : Nat) (e : TocEntry) : String :=
  toString i ++ ". " ++ e.title ++ "  ......  p. " ++ toString e.start_page

/-- The title line `c.drawString(72, height - 72, ...)`. -/
def headerLine : DrawnLine :=
  ⟨72, A4height - 72, "목차 (Table of Contents)"⟩

/-- The entry lines drawn by the loop in `create_toc_page`: ordinal
`i` starting at 1, `y` starting at `height - 110`, decreasing by 18
after each line. -/
def tocEntryLines (i : Nat) (y : ℚ) : List TocEntry → List DrawnLine
  | [] => []
  | e :: es => ⟨80, y, tocLineText i e⟩ :: tocEntryLines (i + 1) (y - 18) es

/-- The `link_positions` list: the same loop records `y` for each
entry before decrementing it. -/
def tocLinkPositions (y : ℚ) : List TocEntry → List ℚ
  | [] => []
  | _ :: es => y :: tocLinkPositions (y - 18) es

/-- All lines of the single TOC page: header first, then one line per
entry. -/
def tocPageLines (entries : List TocEntry) : List DrawnLine :=
  headerLine :: tocEntryLines 1 (A4height - 110) entries

/-- `create_toc_page(entries)`: returns the rendered PDF (exactly one
page, since the canvas calls `showPage` once), the recorded y
coordinate of each entry line, and the page width. -/
def create_toc_page (entries : List TocEntry) :
    List (List DrawnLine) × List ℚ × ℚ :=
  ([tocPageLines entries],
   tocLinkPositions (A4height - 110) entries,
   A4width)

/-- Step 2 of `merge_pdfs_with_toc`: the running cursor starts at 1
(the TOC page); each document gets `start_page = cursor + 1` and the
cursor advances by its page count. -/
def entriesFrom {α : Type} (cursor : Nat) : List (Doc α) → List TocEntry
  | [] => []
  | d :: ds => ⟨d.name, cursor + 1⟩ :: entriesFrom (cursor + d.pages.length) ds

/-- Step 4-2 of `merge_pdfs_with_toc`: for each document in order,
record `start_index = len(writer.pages)` and append all of its pages.
The accumulator is the writer's page list together with
`start_page_indices`. -/
def addDocs {α : Type} (acc : List (MergedPage α) × List Nat) :
    List (Doc α) → List (MergedPage α) × List Nat
  | [] => acc
  | d :: ds =>
      addDocs (acc.1 ++ d.pages.map MergedPage.src, acc.2 ++ [acc.1.length]) ds

/-- One clickable internal-link region attached by step 6:
`writer.add_annotation(page_number=0, ...)` with
`rect = (70, y - 2, toc_page_width - 70, y + 12)` and the document's
recorded start index as target. -/
structure TocLink where
  page_number : Nat
  rect : ℚ × ℚ × ℚ × ℚ
  target_page_index : Nat
deriving DecidableEq, Repr

instance : Inhabited TocLink := ⟨⟨0, (0, 0, 0, 0), 0⟩⟩

/-- The link built for one `((entry, y), start_index)` triple in
step 6, given the TOC page width `w`. -/
def mkLink (w : ℚ) (p : (TocEntry × ℚ) × Nat) : TocLink :=
  { page_number := 0
    rect := (70, p.1.2 - 2, w - 70, p.1.2 + 12)
    target_page_index := p.2 }

/-- The result of `merge_pdfs_with_toc`: the writer's final page
sequence, the recorded per-document start indices, the outline
(bookmark) entries of step 5 in order, and the link regions of
step 6 in order. -/
structure MergedOutput (α : Type) where
  pages : List (MergedPage α)
  start_page_indices : List Nat
  outline : List (String × Nat)
  links : List TocLink
deriving DecidableEq, Repr

/-- The whole pipeline `merge_pdfs_with_toc(uploaded_files)`. -/
def merge_pdfs_with_toc {α : Type} (docs : List (Doc α)) : MergedOutput α :=
  let entries := entriesFrom 1 docs
  let tocres := create_toc_page entries
  let tocPages := tocres.1.map MergedPage.toc
  let asm := addDocs (tocPages, []) docs
  let outline := (docs.zip asm.2).map (fun p => (p.1.name, p.2))
  let links := ((entries.zip tocres.2.1).zip asm.2).map (mkLink tocres.2.2)
  { pages := asm.1
    start_page_indices := asm.2
    outline := outline
    links := links }

/-- The pages contributed by the source documents, in input order,
each document's pages contiguous. -/
def srcPages {α : Type} (docs : List (Doc α)) : List (MergedPage α) :=
  (docs.map (fun d => d.pages.map MergedPage.src)).flatten

/-- The start indices as a direct recursion: the first document starts
at index `l` (the number of pages already in the writer) and each
later one `pageCount` further on. -/
def idxFrom {α : Type} (l : Nat) : List (Doc α) → List Nat
  | [] => []
  | d :: ds => l :: idxFrom (l + d.pages.length) ds

/-- Modelled from the spec (§4.1 PageIndexPlanner, an algorithm the
source interleaves with assembly rather than exposing separately): a
running cursor starts at 1; for each document `assembledIndex =
cursor` and the cursor advances by its page count. -/
def specAssembledIndex {α : Type} (cursor : Nat) : List (Doc α) → List Nat
  | [] => []
  | d :: ds => cursor :: specAssembledIndex (cursor + d.pages.length) ds

/-- Modelled from the spec (§4.2): TOC page capacity
`(pageHeight − topMargin − bottomMargin) / linePitch` with the
source's constants: entries start 110 below the top edge, the bottom
margin is 0, and the line pitch is 18. -/
def tocCapacity : ℕ := ⌊(A4height - 110 - 0) / 18⌋.toNat

/-- A rectangle `(xLL, yLL, xUR, yUR)` lies within the TOC page
bounds: `[0, width] × [0, height]`. -/
def rectInBounds (r : ℚ × ℚ × ℚ × ℚ) : Prop :=
  0 ≤ r.1 ∧ 0 ≤ r.2.1 ∧ r.2.2.1 ≤ A4width ∧ r.2.2.2 ≤ A4height

instance : DecidablePred rectInBounds := fun _ => by
  unfold rectInBounds; infer_instance

/-! ### Structural lemmas about the assembly loop -/

lemma srcPages_cons {α : Type} (d : Doc α) (ds : List (Doc α)) :
    srcPages (d :: ds) = d.pages.map MergedPage.src ++ srcPages ds := by
  simp [srcPages]

lemma addDocs_eq {α : Type} (docs : List (Doc α))
    (ps : List (MergedPage α)) (is : List Nat) :
    addDocs (ps, is) docs =
      (ps ++ srcPages docs, is ++ idxFrom ps.length docs) := by
  induction docs generalizing ps is with
  | nil => simp [addDocs, srcPages, idxFrom]
  | cons d ds ih =>
      simp only [addDocs, ih, srcPages_cons, idxFrom, List.length_append,
        List.length_map, List.append_assoc, List.singleton_append]

lemma merge_pages {α : Type} (docs : List (Doc α)) :
    (merge_pdfs_with_toc docs).pages =
      MergedPage.toc (tocPageLines (entriesFrom 1 docs)) :: srcPages docs := by
  simp [merge_pdfs_with_toc, create_toc_page, addDocs_eq]

lemma merge_idx {α : Type} (docs : List (Doc α)) :
    (merge_pdfs_with_toc docs).start_page_indices = idxFrom 1 docs := by
  simp [merge_pdfs_with_toc, create_toc_page, addDocs_eq]

lemma merge_outline {α : Type} (docs : List (Doc α)) :
    (merge_pdfs_with_toc docs).outline =
      (docs.zip (idxFrom 1 docs)).map (fun p => (p.1.name, p.2)) := by
  simp [merge_pdfs_with_toc, create_toc_page, addDocs_eq]

lemma merge_links {α : Type} (docs : List (Doc α)) :
    (merge_pdfs_with_toc docs).links =
      (((entriesFrom 1 docs).zip
          (tocLinkPositions (A4height - 110) (entriesFrom 1 docs))).zip
        (idxFrom 1 docs)).map (mkLink A4width) := by
  simp [merge_pdfs_with_toc, create_toc_page, addDocs_eq]

/-! ### Lengths -/

lemma entriesFrom_length {α : Type} (docs : List (Doc α)) (c : Nat) :
    (entriesFrom c docs).length = docs.length := by
  induction docs generalizing c with
  | nil => rfl
  | cons d ds ih => simp [entriesFrom, ih]

lemma idxFrom_length {α : Type} (docs : List (Doc α)) (l : Nat) :
    (idxFrom l docs).length = docs.length := by
  induction docs generalizing l with
  | nil => rfl
  | cons d ds ih => simp [idxFrom, ih]

lemma tocLinkPositions_length (es : List TocEntry) (y : ℚ) :
    (tocLinkPositions y es).length = es.length := by
  induction es generalizing y with
  | nil => rfl
  | cons e es ih => simp [tocLinkPositions, ih]

lemma tocEntryLines_length (es : List TocEntry) (k : Nat) (y : ℚ) :
    (tocEntryLines k y es).length = es.length := by
  induction es generalizing k y with
  | nil => rfl
  | cons e es ih => simp [tocEntryLines, ih]

lemma srcPages_length {α : Type} (docs : List (Doc α)) :
    (srcPages docs).length = (docs.map (fun d => d.pages.length)).sum := by
  induction docs with
  | nil => rfl
  | cons d ds ih => simp [srcPages_cons, ih]

/-! ### Pointwise descriptions -/

lemma tocLinkPositions_getD (es : List TocEntry) (y : ℚ) (i : Nat)
    (h : i < es.length) :
    (tocLinkPositions y es).getD i 0 = y - 18 * i := by
  induction es generalizing y i with
  | nil => simp at h
  | cons e es ih =>
      cases i with
      | zero => simp [tocLinkPositions]
      | succ j =>
          have hj : j < es.length := by simpa using h
          simp only [tocLinkPositions, List.getD_cons_succ]
          rw [ih _ _ hj]
          push_cast
          ring

lemma tocEntryLines_getD (es : List TocEntry) (k : Nat) (y : ℚ) (i : Nat)
    (h : i < es.length) :
    (tocEntryLines k y es).getD i default =
      ⟨80, y - 18 * i, tocLineText (k + i) (es.getD i default)⟩ := by
  induction es generalizing k y i with
  | nil => simp at h
  | cons e es ih =>
      cases i with
      | zero => simp [tocEntryLines]
      | succ j =>
          have hj : j < es.length := by simpa using h
          simp only [tocEntryLines, List.getD_cons_succ]
          rw [ih _ _ _ hj]
          congr 1
          · push_cast; ring
          · congr 1; omega

lemma entriesFrom_start_page {α : Type} (docs : List (Doc α)) (c : Nat)
    (i : Nat) (h : i < docs.length) :
    ((entriesFrom c docs).getD i default).start_page =
      (idxFrom c docs).getD i 0 + 1 := by
  induction docs generalizing c i with
  | nil => simp at h
  | cons d ds ih =>
      cases i with
      | zero => simp [entriesFrom, idxFrom]
      | succ j =>
          have hj : j < ds.length := by simpa using h
          simp only [entriesFrom, idxFrom, List.getD_cons_succ]
          exact ih _ _ hj

lemma outline_getD {α : Type} (docs : List (Doc α)) (l i : Nat)
    (h : i < docs.length) :
    ((docs.zip (idxFrom l docs)).map (fun p => (p.1.name, p.2))).getD i ("", 0) =
      ((docs.getD i default).name, (idxFrom l docs).getD i 0) := by
  induction docs generalizing l i with
  | nil => simp at h
  | cons d ds ih =>
      cases i with
      | zero => simp [idxFrom]
      | succ j =>
          have hj : j < ds.length := by simpa using h
          simp only [idxFrom, List.zip_cons_cons, List.map_cons,
            List.getD_cons_succ]
          exact ih _ _ hj

lemma mapLink_getD {α : Type} (docs : List (Doc α)) (c l : Nat) (y : ℚ)
    (i : Nat) (h : i < docs.length) :
    ((((entriesFrom c docs).zip
          (tocLinkPositions y (entriesFrom c docs))).zip
        (idxFrom l docs)).map (mkLink A4width)).getD i default =
      ⟨0, (70, y - 18 * i - 2, A4width - 70, y - 18 * i + 12),
       (idxFrom l docs).getD i 0⟩ := by
  induction docs generalizing c l y i with
  | nil => simp at h
  | cons d ds ih =>
      cases i with
      | zero => simp [entriesFrom, tocLinkPositions, idxFrom, mkLink]
      | succ j =>
          have hj : j < ds.length := by simpa using h
          simp only [entriesFrom, tocLinkPositions, idxFrom,
            List.zip_cons_cons, List.map_cons, List.getD_cons_succ]
          rw [ih _ _ _ _ hj]
          push_cast
          ring_nf

lemma merge_links_getD {α : Type} (docs : List (Doc α)) (i : Nat)
    (h : i < docs.length) :
    (merge_pdfs_with_toc docs).links.getD i default =
      ⟨0, (70, A4height - 110 - 18 * i - 2, A4width - 70,
            A4height - 110 - 18 * i + 12),
       (idxFrom 1 docs).getD i 0⟩ := by
  rw [merge_links]
  exact mapLink_getD docs 1 1 (A4height - 110) i h

lemma idxFrom_getD_succ {α : Type} (docs : List (Doc α)) (l i : Nat)
    (h : i + 1 < docs.length) :
    (idxFrom l docs).getD (i + 1) 0 =
      (idxFrom l docs).getD i 0 + (docs.getD i default).pages.length := by
  induction docs generalizing l i with
  | nil => simp at h
  | cons d ds ih =>
      cases i with
      | zero =>
          cases ds with
          | nil => simp at h
          | cons d2 ds2 => simp [idxFrom]
      | succ j =>
          have hj : j + 1 < ds.length := by simpa using h
          simp only [idxFrom, List.getD_cons_succ]
          exact ih _ _ hj

lemma idxFrom_eq_spec {α : Type} (docs : List (Doc α)) (c : Nat) :
    idxFrom c docs = specAssembledIndex c docs := by
  induction docs generalizing c with
  | nil => rfl
  | cons d ds ih => simp [idxFrom, specAssembledIndex, ih]

/-! ### Numeric constants -/

lemma A4height_eq : A4height = 106920 / 127 := by
  norm_num [A4height, mm]

lemma A4width_eq : A4width = 75600 / 127 := by
  norm_num [A4width, mm]

lemma tocCapacity_eq : tocCapacity = 40 := by
  have h : A4height - 110 - 0 = 92950 / 127 := by rw [A4height_eq]; norm_num
  have h2 : (A4height - 110 - 0) / 18 = 46475 / 1143 := by rw [h]; norm_num
  have h3 : ⌊(46475 : ℚ) / 1143⌋ = 40 := by
    rw [Int.floor_eq_iff]
    norm_num
  rw [tocCapacity, h2, h3]
  rfl

/-! ### Concrete inputs used as witnesses and counterexamples -/

/-- The spec's scenario: documents A (3 pages), B (1 page), C (2
pages); page content is abstract, here tagged by numbers. -/
def demoDocs : List (Doc Nat) :=
  [⟨"A", [10, 11, 12]⟩, ⟨"B", [20]⟩, ⟨"C", [30, 31]⟩]

/-- 42 one-page documents: one more entry than fits above the bottom
edge of the TOC page. -/
def docs42 : List (Doc Nat) := List.replicate 42 ⟨"d", [0]⟩

/-- A document list containing a zero-page document. -/
def docsWithEmpty : List (Doc Nat) :=
  [⟨"empty", []⟩, ⟨"B", [20]⟩]

/-! ### Claims -/

/-- C1: for every input list of documents with positive page counts
and every position `i`, the `start_page` stored in the i-th TOC entry
equals the writer page index recorded when the i-th document's pages
are appended, plus 1. -/
theorem C1_human_start_page_eq_index_plus_one {α : Type}
    (docs : List (Doc α)) (_hpos : ∀ d ∈ docs, 0 < d.pages.length)
    (i : Nat) (hi : i < docs.length) :
    ((entriesFrom 1 docs).getD i default).start_page =
      (merge_pdfs_with_toc docs).start_page_indices.getD i 0 + 1 := by
  rw [merge_idx]
  exact entriesFrom_start_page docs 1 i hi

/-- Witness for C1 on the spec's A/B/C scenario at position 1. -/
theorem C1_witness :
    ((entriesFrom 1 demoDocs).getD 1 default).start_page =
      (merge_pdfs_with_toc demoDocs).start_page_indices.getD 1 0 + 1 :=
  C1_human_start_page_eq_index_plus_one demoDocs (by decide) 1 (by decide)

/-- C2: for every input list of documents, the merged output has
exactly `1 + sum of page counts` pages: the generated TOC contributes
exactly one page. -/
theorem C2_total_page_count {α : Type} (docs : List (Doc α)) :
    (merge_pdfs_with_toc docs).pages.length =
      1 + (docs.map (fun d => d.pages.length)).sum := by
  rw [merge_pages]
  simp [srcPages_length]
  omega

/-- C3: the assembled output is the TOC page (at index 0) followed by
each document's pages contiguously in input order, and the start
indices recorded at assembly time equal the planner's
AssembledIndex sequence (cursor starting at 1). -/
theorem C3_assembly_structure {α : Type} (docs : List (Doc α)) :
    (merge_pdfs_with_toc docs).pages =
      MergedPage.toc (tocPageLines (entriesFrom 1 docs)) :: srcPages docs ∧
    (merge_pdfs_with_toc docs).start_page_indices =
      specAssembledIndex 1 docs := by
  refine ⟨merge_pages docs, ?_⟩
  rw [merge_idx]
  exact idxFrom_eq_spec docs 1

/-- C6: the output has exactly one outline bookmark per document, in
document order, labeled with the document's name and targeting its
recorded assembled start index. -/
theorem C6_bookmarks {α : Type} (docs : List (Doc α)) :
    (merge_pdfs_with_toc docs).outline.length = docs.length ∧
    ∀ i, i < docs.length →
      (merge_pdfs_with_toc docs).outline.getD i ("", 0) =
        ((docs.getD i default).name,
         (merge_pdfs_with_toc docs).start_page_indices.getD i 0) := by
  constructor
  · rw [merge_outline]
    simp [idxFrom_length]
  · intro i hi
    rw [merge_outline, merge_idx]
    exact outline_getD docs 1 i hi

/-- Witness for C6 on the spec's A/B/C scenario at position 2. -/
theorem C6_witness :
    (merge_pdfs_with_toc demoDocs).outline.length = demoDocs.length ∧
    (merge_pdfs_with_toc demoDocs).outline.getD 2 ("", 0) =
      ((demoDocs.getD 2 default).name,
       (merge_pdfs_with_toc demoDocs).start_page_indices.getD 2 0) :=
  ⟨(C6_bookmarks demoDocs).1, (C6_bookmarks demoDocs).2 2 (by decide)⟩

/-- C8: merging the empty document list succeeds and yields exactly
one page — the TOC page holding only the header line — with zero
bookmarks and zero link regions. -/
theorem C8_empty_input {α : Type} :
    merge_pdfs_with_toc ([] : List (Doc α)) =
      { pages := [MergedPage.toc [headerLine]]
        start_page_indices := []
        outline := []
        links := [] } := by
  rfl

/-- C10: without any positivity assumption on page counts, the merge
still satisfies `start_page = start_index + 1` at every position, and
a zero-page document receives the same recorded start index as the
document that follows it. -/
theorem C10_zero_page_documents {α : Type} (docs : List (Doc α)) :
    (∀ i, i < docs.length →
      ((entriesFrom 1 docs).getD i default).start_page =
        (merge_pdfs_with_toc docs).start_page_indices.getD i 0 + 1) ∧
    (∀ i, i + 1 < docs.length → (docs.getD i default).pages.length = 0 →
      (merge_pdfs_with_toc docs).start_page_indices.getD i 0 =
        (merge_pdfs_with_toc docs).start_page_indices.getD (i + 1) 0) := by
  constructor
  · intro i hi
    rw [merge_idx]
    exact entriesFrom_start_page docs 1 i hi
  · intro i hi hzero
    rw [merge_idx]
    rw [idxFrom_getD_succ docs 1 i hi, hzero]
    omega

/-- Witness for C10 on a list whose first document has zero pages. -/
theorem C10_witness :
    ((entriesFrom 1 docsWithEmpty).getD 0 default).start_page =
      (merge_pdfs_with_toc docsWithEmpty).start_page_indices.getD 0 0 + 1 ∧
    (merge_pdfs_with_toc docsWithEmpty).start_page_indices.getD 0 0 =
      (merge_pdfs_with_toc docsWithEmpty).start_page_indices.getD 1 0 :=
  ⟨(C10_zero_page_documents docsWithEmpty).1 0 (by decide),
   (C10_zero_page_documents docsWithEmpty).2 0 (by decide) (by decide)⟩

/-- C4 counterexample: on an input containing a zero-page document the
merge produces a normal output (TOC page plus the other document's
page, with recorded indices) instead of failing. -/
theorem C4_counterexample :
    (merge_pdfs_with_toc docsWithEmpty).pages.length = 2 ∧
    (merge_pdfs_with_toc docsWithEmpty).start_page_indices = [1, 1] := by
  constructor
  · rw [merge_pages]
    rfl
  · rw [merge_idx]
    rfl

/-- C4 amended: the merge performs no page-count validation — an
input containing a zero-page document is accepted and yields the
normal output of `1 + sum of page counts` pages. -/
theorem C4_amended_zero_page_accepted {α : Type} (docs : List (Doc α))
    (_h : ∃ d ∈ docs, d.pages.length = 0) :
    (merge_pdfs_with_toc docs).pages.length =
      1 + (docs.map (fun d => d.pages.length)).sum := by
  rw [merge_pages]
  simp [srcPages_length]
  omega

/-- Witness for the amended C4 on a list whose first document has zero
pages. -/
theorem C4_witness :
    (merge_pdfs_with_toc docsWithEmpty).pages.length =
      1 + (docsWithEmpty.map (fun d => d.pages.length)).sum :=
  C4_amended_zero_page_accepted docsWithEmpty (by decide)

/-- C5 counterexample: 42 entries exceed the single-page capacity of
40 lines, yet the merge succeeds (43 output pages), every entry is
still drawn (42 lines after the header), and the 42nd recorded
position is below the bottom edge of the page. -/
theorem C5_counterexample :
    tocCapacity < 42 ∧
    (merge_pdfs_with_toc docs42).pages.length = 43 ∧
    (tocEntryLines 1 (A4height - 110) (entriesFrom 1 docs42)).length = 42 ∧
    (create_toc_page (entriesFrom 1 docs42)).2.1.getD 41 0 < 0 := by
  refine ⟨?_, ?_, ?_, ?_⟩
  · rw [tocCapacity_eq]
    norm_num
  · rw [merge_pages]
    simp [srcPages_length, docs42]
  · simp [tocEntryLines_length, entriesFrom_length, docs42]
  · have hlen : 41 < (entriesFrom 1 docs42).length := by
      simp [entriesFrom_length, docs42]
    simp only [create_toc_page]
    rw [tocLinkPositions_getD _ _ 41 hlen, A4height_eq]
    norm_num

/-- C5 amended: the renderer raises no overflow error and never clips:
it records one position per entry whatever the count, and every entry
past index `tocCapacity` is drawn with its baseline below the bottom
edge of the page (negative y). -/
theorem C5_amended_overflow_draws_off_page (es : List TocEntry) (i : Nat)
    (hi : i < es.length) (hcap : tocCapacity < i) :
    (create_toc_page es).2.1.length = es.length ∧
    (create_toc_page es).2.1.getD i 0 < 0 := by
  constructor
  · simp [create_toc_page, tocLinkPositions_length]
  · simp only [create_toc_page]
    rw [tocLinkPositions_getD es _ i hi]
    rw [tocCapacity_eq] at hcap
    have h41 : (41 : ℚ) ≤ (i : ℚ) := by exact_mod_cast hcap
    rw [A4height_eq]
    linarith

/-- A 42-entry list used to witness the amended C5. -/
def entries42 : List TocEntry := List.replicate 42 ⟨"e", 2⟩

/-- Witness for the amended C5 at entry index 41 of a 42-entry list. -/
theorem C5_witness :
    (create_toc_page entries42).2.1.length = entries42.length ∧
    (create_toc_page entries42).2.1.getD 41 0 < 0 :=
  C5_amended_overflow_draws_off_page entries42 41 (by decide)
    (by simp [tocCapacity_eq])

/-- C7 counterexample: with 42 documents the merge produces 42 link
regions, and the 42nd one's rectangle extends below the TOC page
(its lower edge is negative), so it does not lie within the page
bounds. -/
theorem C7_counterexample :
    (merge_pdfs_with_toc docs42).links.length = 42 ∧
    ¬ rectInBounds ((merge_pdfs_with_toc docs42).links.getD 41 default).rect := by
  constructor
  · rw [merge_links]
    simp [entriesFrom_length, tocLinkPositions_length, idxFrom_length, docs42]
  · rw [merge_links_getD docs42 41 (by simp [docs42])]
    norm_num [rectInBounds, A4height_eq]

/-- C7 amended: every link's target index equals the corresponding
document's recorded start index, and the link rectangle lies within
the TOC page bounds whenever the document list has at most 41
entries (beyond that, rectangles extend below the page). -/
theorem C7_amended_links {α : Type} (docs : List (Doc α)) (i : Nat)
    (hi : i < docs.length) :
    ((merge_pdfs_with_toc docs).links.getD i default).target_page_index =
      (merge_pdfs_with_toc docs).start_page_indices.getD i 0 ∧
    (docs.length ≤ 41 →
      rectInBounds ((merge_pdfs_with_toc docs).links.getD i default).rect) := by
  rw [merge_links_getD docs i hi, merge_idx]
  constructor
  · rfl
  · intro hlen
    have hi40 : (i : ℚ) ≤ 40 := by
      have h : i ≤ 40 := by omega
      exact_mod_cast h
    have hi0 : (0 : ℚ) ≤ (i : ℚ) := Nat.cast_nonneg i
    simp only [rectInBounds, A4height_eq, A4width_eq]
    refine ⟨by norm_num, by linarith, by linarith, by linarith⟩

/-- Witness for the amended C7 on the spec's A/B/C scenario at
position 0. -/
theorem C7_witness :
    ((merge_pdfs_with_toc demoDocs).links.getD 0 default).target_page_index =
      (merge_pdfs_with_toc demoDocs).start_page_indices.getD 0 0 ∧
    rectInBounds ((merge_pdfs_with_toc demoDocs).links.getD 0 default).rect :=
  ⟨(C7_amended_links demoDocs 0 (by decide)).1,
   (C7_amended_links demoDocs 0 (by decide)).2 (by decide)⟩

/-- C9: the renderer records exactly one vertical position per entry
in order; entry `i` (0-based) is drawn as the line
`"<i+1>. <title>  ......  p. <start_page>"` at x = 80 and exactly the
recorded y position; consecutive positions drop by the fixed pitch
18, hence strictly decrease. -/
theorem C9_toc_rendering (es : List TocEntry) :
    (create_toc_page es).2.1.length = es.length ∧
    (∀ i, i < es.length →
      (tocEntryLines 1 (A4height - 110) es).getD i default =
        ⟨80, (create_toc_page es).2.1.getD i 0,
         tocLineText (i + 1) (es.getD i default)⟩) ∧
    (∀ i, i + 1 < es.length →
      (create_toc_page es).2.1.getD (i + 1) 0 =
        (create_toc_page es).2.1.getD i 0 - 18) := by
  refine ⟨?_, ?_, ?_⟩
  · simp [create_toc_page, tocLinkPositions_length]
  · intro i hi
    simp only [create_toc_page]
    rw [tocEntryLines_getD es 1 _ i hi, tocLinkPositions_getD es _ i hi,
      Nat.add_comm 1 i]
  · intro i hi
    simp only [create_toc_page]
    rw [tocLinkPositions_getD es _ (i + 1) hi,
      tocLinkPositions_getD es _ i (by omega)]
    push_cast
    ring

/-- A two-entry list used to witness C9. -/
def entries2 : List TocEntry := [⟨"A", 2⟩, ⟨"B", 5⟩]

/-- Witness for C9 on a two-entry list: line 0 and the pitch between
positions 0 and 1. -/
theorem C9_witness :
    (create_toc_page entries2).2.1.length = entries2.length ∧
    (tocEntryLines 1 (A4height - 110) entries2).getD 0 default =
      ⟨80, (create_toc_page entries2).2.1.getD 0 0,
       tocLineText (0 + 1) (entries2.getD 0 default)⟩ ∧
    (create_toc_page entries2).2.1.getD (0 + 1) 0 =
      (create_toc_page entries2).2.1.getD 0 0 - 18 :=
  ⟨(C9_toc_rendering entries2).1,
   (C9_toc_rendering entries2).2.1 0 (by decide),
   (C9_toc_rendering entries2).2.2 0 (by decide)⟩
